import Mathlib

/-!
Verification of the trim-mesh border component of the Dilay repository
(`tool/trim-mesh/border.cpp`).  The embedding targets the richer, canonical
implementation (the one supporting an offset, a traversal-reversal flag and
the obtuse-angle check).

The geometric primitives (`PrimPlane`, `PrimRay`, `IntersectionUtil`,
`Camera`, `Util`) live outside the given sources; they are modelled from the
spec's description of them.  Vectors are exact rational triples, so the
float epsilon tolerances of the C++ predicates are modelled as exact (zero
tolerance) comparisons, and `glm::normalize` (a positive rescaling of a
vector, undefinable over `ℚ`) is dropped: every predicate below is a sign
test or an exact-zero test, both invariant under positive rescaling of the
vectors involved.
-/

/-- Modelled from the spec: a 3D vector (`glm::vec3`), with exact rational
coordinates. -/
structure V3 where
  x : ℚ
  y : ℚ
  z : ℚ
deriving DecidableEq

namespace V3

def add (a b : V3) : V3 := ⟨a.x + b.x, a.y + b.y, a.z + b.z⟩

def sub (a b : V3) : V3 := ⟨a.x - b.x, a.y - b.y, a.z - b.z⟩

def neg (a : V3) : V3 := ⟨-a.x, -a.y, -a.z⟩

def smul (c : ℚ) (a : V3) : V3 := ⟨c * a.x, c * a.y, c * a.z⟩

instance : Add V3 := ⟨add⟩

instance : Sub V3 := ⟨sub⟩

instance : Neg V3 := ⟨neg⟩

instance : Zero V3 := ⟨⟨0, 0, 0⟩⟩

instance : SMul ℚ V3 := ⟨smul⟩

@[simp] theorem add_def (a b : V3) : a + b = ⟨a.x + b.x, a.y + b.y, a.z + b.z⟩ := rfl

@[simp] theorem sub_def (a b : V3) : a - b = ⟨a.x - b.x, a.y - b.y, a.z - b.z⟩ := rfl

@[simp] theorem neg_def (a : V3) : -a = ⟨-a.x, -a.y, -a.z⟩ := rfl

@[simp] theorem smul_def (c : ℚ) (a : V3) : c • a = ⟨c * a.x, c * a.y, c * a.z⟩ := rfl

@[simp] theorem zero_x : (0 : V3).x = 0 := rfl

@[simp] theorem zero_y : (0 : V3).y = 0 := rfl

@[simp] theorem zero_z : (0 : V3).z = 0 := rfl

/-- Modelled from the spec: the dot product `glm::dot`. -/
def dot (a b : V3) : ℚ := a.x * b.x + a.y * b.y + a.z * b.z

/-- Modelled from the spec: the cross product `glm::cross`. -/
def cross (a b : V3) : V3 :=
  ⟨a.y * b.z - a.z * b.y, a.z * b.x - a.x * b.z, a.x * b.y - a.y * b.x⟩

theorem ext3 {a b : V3} (hx : a.x = b.x) (hy : a.y = b.y) (hz : a.z = b.z) : a = b := by
  cases a; cases b; cases hx; cases hy; cases hz; rfl

end V3

/-- Modelled from the spec: `Util::midpoint`, the midpoint of two points
(used by `trimFace` on the triangle's edges). -/
def midpoint3 (a b : V3) : V3 := ((1 : ℚ) / 2) • (a + b)

/-- Modelled from the spec: a ray (`PrimRay`) with an origin and a direction. -/
structure PrimRay where
  origin : V3
  direction : V3
deriving DecidableEq

namespace PrimRay

/-- Modelled from the spec: `PrimRay::pointAt`, the point at parametric
distance `t` along the ray. -/
def pointAt (r : PrimRay) (t : ℚ) : V3 := r.origin + t • r.direction

/-- Modelled from the spec: `PrimRay::onRay`, the on-ray test (the point lies
on the ray, i.e. equals `origin + t • direction` for some `t ≥ 0`; tolerance
is exact over `ℚ`).  Implemented by a collinearity test plus a non-negative
projection test. -/
def onRay (r : PrimRay) (p : V3) : Bool :=
  if r.direction = 0 then decide (p = r.origin)
  else decide (V3.cross (p - r.origin) r.direction = 0) &&
       decide (0 ≤ V3.dot (p - r.origin) r.direction)

end PrimRay

/-- Modelled from the spec: a plane (`PrimPlane`) given by a point and a
normal. -/
structure PrimPlane where
  point : V3
  normal : V3
deriving DecidableEq

namespace PrimPlane

/-- Modelled from the spec: `PrimPlane::onPlane`, the on-plane test with
tolerance (exact over `ℚ`): the vector from the plane's point to `p` is
orthogonal to the normal. -/
def onPlane (pl : PrimPlane) (p : V3) : Bool :=
  decide (V3.dot pl.normal (p - pl.point) = 0)

end PrimPlane

namespace IntersectionUtil

/-- Modelled from the spec: `IntersectionUtil::intersects (ray, plane, &t)`:
solve for the parametric distance `t` of the ray-plane intersection; report
no intersection when the ray is parallel to the plane or `t` is outside the
ray's valid domain (`t < 0`). -/
def intersects (r : PrimRay) (pl : PrimPlane) : Option ℚ :=
  let d := V3.dot pl.normal r.direction
  if d = 0 then none
  else
    let t := V3.dot pl.normal (pl.point - r.origin) / d
    if 0 ≤ t then some t else none

end IntersectionUtil

/-- Modelled from the spec: the camera collaborator, reduced to its consumed
interface: `position ()` and `ray (screenPoint)` (unprojecting a 2D integer
screen point into a 3D ray). -/
structure Camera where
  position : V3
  ray : ℤ × ℤ → PrimRay

/-- Modelled from the spec: `Util::invalidIndex`, the sentinel marking an
index that does not exist in an index mapping; the C++ implementation uses
the maximum `unsigned int`. -/
def invalidIndex : ℕ := 2 ^ 32 - 1

/-- One bounded half-plane of the trimming volume
(`ToolTrimMeshBorderSegment`): a plane, up to two bounding edge rays, and the
accumulated polylines of vertex indices. -/
structure ToolTrimMeshBorderSegment where
  polylines : List (List ℕ)
  plane : PrimPlane
  edge1 : Option PrimRay
  edge2 : Option PrimRay
deriving DecidableEq

/-- Helper for `Option`-valued loops: apply `f` to every element, failing
(fatal assertion) as soon as one application fails. -/
def mapOrNone (f : α → Option β) : List α → Option (List β)
  | [] => some []
  | a :: l =>
    match f a, mapOrNone f l with
    | some b, some bs => some (b :: bs)
    | _, _ => none

/-- Append `i` to the last (most recently opened) polyline
(`polylines.back ().emplace_back (index)`). -/
def appendToLast (ls : List (List ℕ)) (i : ℕ) : List (List ℕ) :=
  ls.dropLast ++ [ls.getLastD [] ++ [i]]

namespace ToolTrimMeshBorderSegment

/-- Constructor from two edge rays: the plane passes through `e1`'s origin
with normal `cross (e2.direction, e1.direction)`. -/
def ofRays (e1 e2 : PrimRay) : ToolTrimMeshBorderSegment :=
  ⟨[], ⟨e1.origin, V3.cross e2.direction e1.direction⟩, some e1, some e2⟩

/-- Constructor from a plane and a trailing edge ray (`edge2`). -/
def ofPlaneRay (p : PrimPlane) (e : PrimRay) : ToolTrimMeshBorderSegment :=
  ⟨[], p, none, some e⟩

/-- Constructor from a leading edge ray (`edge1`) and a plane. -/
def ofRayPlane (e : PrimRay) (p : PrimPlane) : ToolTrimMeshBorderSegment :=
  ⟨[], p, some e, none⟩

/-- Constructor from a plane only (no edges). -/
def ofPlane (p : PrimPlane) : ToolTrimMeshBorderSegment :=
  ⟨[], p, none, none⟩

/-- `edge && edge->onRay (p)`: the edge is present and contains `p`. -/
def edgeHit (e : Option PrimRay) (p : V3) : Bool :=
  match e with
  | some r => r.onRay p
  | none => false

/-- `ToolTrimMeshBorderSegment::Impl::isValidProjection`: for each present
edge, require the corresponding scalar triple product to be strictly
positive; absent edges impose no constraint; both constraints conjoined. -/
def isValidProjection (s : ToolTrimMeshBorderSegment) (p : V3) : Bool :=
  let c1 :=
    match s.edge1 with
    | some e => decide (0 < V3.dot s.plane.normal (V3.cross (p - e.origin) e.direction))
    | none => true
  let c2 :=
    match s.edge2 with
    | some e => decide (0 < V3.dot s.plane.normal (V3.cross e.direction (p - e.origin)))
    | none => true
  c1 && c2

/-- `ToolTrimMeshBorderSegment::Impl::onBorder`: first component is the
result, second is the `onEdge` out-parameter. -/
def onBorder (s : ToolTrimMeshBorderSegment) (p : V3) : Bool × Bool :=
  if edgeHit s.edge1 p then (true, true)
  else if edgeHit s.edge2 p then (true, true)
  else if s.plane.onPlane p then (s.isValidProjection p, false)
  else (false, false)

/-- `ToolTrimMeshBorderSegment::Impl::intersects`: intersect the ray with
the segment's plane and validate the hit point via `isValidProjection`. -/
def intersects (s : ToolTrimMeshBorderSegment) (r : PrimRay) : Bool :=
  match IntersectionUtil.intersects r s.plane with
  | some t => s.isValidProjection (r.pointAt t)
  | none => false

/-- `ToolTrimMeshBorderSegment::Impl::addVertex`: asserts `onBorder p` and a
non-empty polyline sequence (assertion failure modelled as `none`), then
appends the index to the last polyline. -/
def addVertex (s : ToolTrimMeshBorderSegment) (idx : ℕ) (p : V3) :
    Option ToolTrimMeshBorderSegment :=
  if (s.onBorder p).1 = true then
    if s.polylines.isEmpty = false then
      some { s with polylines := appendToLast s.polylines idx }
    else none
  else none

/-- `ToolTrimMeshBorderSegment::Impl::addPolyline`: opens a new empty
polyline at the end. -/
def addPolyline (s : ToolTrimMeshBorderSegment) : ToolTrimMeshBorderSegment :=
  { s with polylines := s.polylines ++ [[]] }

/-- `newIndices.at (i)` followed by the assertion that the looked-up value is
not `Util::invalidIndex ()`; out-of-range access and a failed assertion are
both fatal (`none`). -/
def lookupNew (newIndices : List ℕ) (i : ℕ) : Option ℕ :=
  if h : i < newIndices.length then
    if newIndices[i] ≠ invalidIndex then some newIndices[i] else none
  else none

/-- `ToolTrimMeshBorderSegment::Impl::setNewIndices`: replace every stored
index `i` by `newIndices.at (i)`. -/
def setNewIndices (s : ToolTrimMeshBorderSegment) (newIndices : List ℕ) :
    Option ToolTrimMeshBorderSegment :=
  (mapOrNone (fun pl => mapOrNone (lookupNew newIndices) pl) s.polylines).map
    (fun pls => { s with polylines := pls })

/-- `ToolTrimMeshBorderSegment::Impl::deleteEmptyPolylines`: erase-remove of
the empty polylines, preserving the order of the rest. -/
def deleteEmptyPolylines (s : ToolTrimMeshBorderSegment) : ToolTrimMeshBorderSegment :=
  { s with polylines := s.polylines.filter (fun pl => !pl.isEmpty) }

/-- `ToolTrimMeshBorderSegment::Impl::hasVertices`: some polyline is
non-empty. -/
def hasVertices (s : ToolTrimMeshBorderSegment) : Bool :=
  s.polylines.any (fun pl => !pl.isEmpty)

end ToolTrimMeshBorderSegment

/-- The full trimming border (`ToolTrimMeshBorder`): an ordered chain of
segments.  (The `DynamicMesh` reference of the C++ struct is an external
collaborator never consulted by the operations below and is omitted.) -/
structure ToolTrimMeshBorder where
  segments : List ToolTrimMeshBorderSegment
deriving DecidableEq

namespace ToolTrimMeshBorder

/-- `cam.ray (points[reverse ? (n - 1) : 0])`. -/
def rFirst (cam : Camera) (points : List (ℤ × ℤ)) (reverse : Bool) : PrimRay :=
  cam.ray (points.getD (if reverse then points.length - 1 else 0) (0, 0))

/-- `cam.ray (points[reverse ? 0 : (n - 1)])`. -/
def rLast (cam : Camera) (points : List (ℤ × ℤ)) (reverse : Bool) : PrimRay :=
  cam.ray (points.getD (if reverse then 0 else points.length - 1) (0, 0))

/-- `baseNormal = normalize (cross (rLast.direction, rFirst.direction))`
(the `normalize`, a positive rescaling, is dropped in the exact model). -/
def baseNormal (cam : Camera) (points : List (ℤ × ℤ)) (reverse : Bool) : V3 :=
  V3.cross (rLast cam points reverse).direction (rFirst cam points reverse).direction

/-- The `makePlane` lambda of the constructor: plane through
`cam.position () + offset * baseNormal` with normal
`normalize (cross (ray i2 .direction, ray i1 .direction))` (the `normalize`
dropped in the exact model). -/
def makePlane (cam : Camera) (points : List (ℤ × ℤ)) (offset : ℚ) (reverse : Bool)
    (i1 i2 : ℕ) : PrimPlane :=
  ⟨cam.position + offset • baseNormal cam points reverse,
   V3.cross (cam.ray (points.getD i2 (0, 0))).direction
     (cam.ray (points.getD i1 (0, 0))).direction⟩

/-- The `makeRay` lambda of the constructor: the camera ray through point
`i`, displaced by `offset * baseNormal`. -/
def makeRay (cam : Camera) (points : List (ℤ × ℤ)) (offset : ℚ) (reverse : Bool)
    (i : ℕ) : PrimRay :=
  ⟨(cam.ray (points.getD i (0, 0))).origin + offset • baseNormal cam points reverse,
   (cam.ray (points.getD i (0, 0))).direction⟩

/-- The segment chain built by `ToolTrimMeshBorder::Impl::Impl`.  For
`n = 2`: one plane-only segment.  Otherwise, for `reverse = false`: a leading
plane+ray segment, then the loop `for (i = 1; i < n - 2; i++)` appending the
two-ray segment `(makeRay i, makeRay (i+1))` (iteration `k` of `range (n-3)`
is loop index `i = 1 + k`), then a trailing ray+plane segment.  For
`reverse = true`: the leading segment from the reversed ends, then the loop
`for (i = n - 2; i > 1; i--)` appending `(makeRay i, makeRay (i-1))`
(iteration `k` is loop index `i = n - 2 - k`), then the trailing segment. -/
def borderSegments (cam : Camera) (points : List (ℤ × ℤ)) (offset : ℚ)
    (reverse : Bool) : List ToolTrimMeshBorderSegment :=
  let n := points.length
  if n = 2 then
    if reverse = false then
      [ToolTrimMeshBorderSegment.ofPlane (makePlane cam points offset reverse 0 1)]
    else
      [ToolTrimMeshBorderSegment.ofPlane (makePlane cam points offset reverse 1 0)]
  else
    if reverse = false then
      ToolTrimMeshBorderSegment.ofPlaneRay (makePlane cam points offset reverse 0 1)
          (makeRay cam points offset reverse 1) ::
        ((List.range (n - 3)).map (fun k =>
          ToolTrimMeshBorderSegment.ofRays (makeRay cam points offset reverse (1 + k))
            (makeRay cam points offset reverse (2 + k))) ++
         [ToolTrimMeshBorderSegment.ofRayPlane (makeRay cam points offset reverse (n - 2))
            (makePlane cam points offset reverse (n - 2) (n - 1))])
    else
      ToolTrimMeshBorderSegment.ofPlaneRay (makePlane cam points offset reverse (n - 1) (n - 2))
          (makeRay cam points offset reverse (n - 2)) ::
        ((List.range (n - 3)).map (fun k =>
          ToolTrimMeshBorderSegment.ofRays (makeRay cam points offset reverse (n - 2 - k))
            (makeRay cam points offset reverse (n - 3 - k))) ++
         [ToolTrimMeshBorderSegment.ofRayPlane (makeRay cam points offset reverse 1)
            (makePlane cam points offset reverse 1 0)])

/-- `ToolTrimMeshBorder::Impl::Impl` (constructor; its `assert (n >= 2)` is
carried as a hypothesis of the theorems below). -/
def make (cam : Camera) (points : List (ℤ × ℤ)) (offset : ℚ) (reverse : Bool) :
    ToolTrimMeshBorder :=
  ⟨borderSegments cam points offset reverse⟩

/-- `ToolTrimMeshBorder::Impl::numSegments`. -/
def numSegments (b : ToolTrimMeshBorder) : ℕ := b.segments.length

/-- Total variant of the bounds-checked `segment (i)` accessor, with a dummy
segment as out-of-range default (theorems only use in-range indices). -/
def segmentD (b : ToolTrimMeshBorder) (i : ℕ) : ToolTrimMeshBorderSegment :=
  b.segments.getD i (ToolTrimMeshBorderSegment.ofPlane ⟨0, 0⟩)

/-- `ToolTrimMeshBorder::Impl::addVertex`: every segment whose `onBorder`
accepts `p` records the index (possibly several); the final
`assert (wasAdded)` makes it fatal (`none`) when no segment accepts. -/
def addVertex (b : ToolTrimMeshBorder) (idx : ℕ) (p : V3) : Option ToolTrimMeshBorder :=
  match mapOrNone (fun s =>
      if (s.onBorder p).1 = true then s.addVertex idx p else some s) b.segments with
  | some segs =>
    if b.segments.any (fun s => (s.onBorder p).1) then some ⟨segs⟩ else none
  | none => none

/-- `ToolTrimMeshBorder::Impl::addPolyline`: broadcast to every segment. -/
def addPolyline (b : ToolTrimMeshBorder) : ToolTrimMeshBorder :=
  ⟨b.segments.map ToolTrimMeshBorderSegment.addPolyline⟩

/-- `ToolTrimMeshBorder::Impl::setNewIndices`: broadcast to every segment. -/
def setNewIndices (b : ToolTrimMeshBorder) (newIndices : List ℕ) :
    Option ToolTrimMeshBorder :=
  (mapOrNone (fun s => s.setNewIndices newIndices) b.segments).map
    (fun segs => ⟨segs⟩)

/-- `ToolTrimMeshBorder::Impl::onBorder`: some segment reports `onBorder`. -/
def onBorder (b : ToolTrimMeshBorder) (p : V3) : Bool :=
  b.segments.any (fun s => (s.onBorder p).1)

/-- `ToolTrimMeshBorder::Impl::trimVertex`: a point on the border is never
trimmed; otherwise cast a ray along the accumulated
`direction -= s.plane ().normal ()` and test the parity of the number of
segments hit. -/
def trimVertex (b : ToolTrimMeshBorder) (p : V3) : Bool :=
  if b.onBorder p then false
  else
    let direction := b.segments.foldl (fun d s => d - s.plane.normal) (0 : V3)
    let ray : PrimRay := ⟨p, direction⟩
    let n := b.segments.countP (fun s => s.intersects ray)
    n % 2 == 1

/-- `ToolTrimMeshBorder::Impl::trimFace`. -/
def trimFace (b : ToolTrimMeshBorder) (p1 p2 p3 : V3) : Bool :=
  if b.trimVertex p1 || b.trimVertex p2 || b.trimVertex p3 then true
  else if b.onBorder p1 && b.onBorder p2 && b.onBorder p3 then
    b.trimVertex (midpoint3 p1 p2) || b.trimVertex (midpoint3 p1 p3) ||
      b.trimVertex (midpoint3 p2 p3)
  else false

/-- `ToolTrimMeshBorder::Impl::hasVertices`: some segment has vertices. -/
def hasVertices (b : ToolTrimMeshBorder) : Bool :=
  b.segments.any ToolTrimMeshBorderSegment.hasVertices

/-- `ToolTrimMeshBorder::Impl::onlyObtuseAngles`: when more than two
segments exist, fail if any pair of consecutive segments' plane normals has
a negative dot product.  (The C++ loop body converts `segments[i].plane ()`
to a temporary plane-only segment before reading back its plane — the
normals compared are exactly the stored plane normals.) -/
def onlyObtuseAngles (b : ToolTrimMeshBorder) : Bool :=
  if 2 < b.segments.length then
    (List.range (b.segments.length - 1)).all (fun i =>
      !decide (V3.dot (b.segmentD i).plane.normal (b.segmentD (i + 1)).plane.normal < 0))
  else true

end ToolTrimMeshBorder

/-- A concrete pinhole-style camera for the concrete evaluations below: the
eye sits at the origin and the ray through screen point `(x, y)` has
direction `(x, y, 1)`. -/
def exCam : Camera :=
  { position := 0, ray := fun q => { origin := 0, direction := ⟨(q.1 : ℚ), (q.2 : ℚ), 1⟩ } }

/-- A two-point border: a single plane-only segment. -/
def exBorder2 : ToolTrimMeshBorder :=
  ToolTrimMeshBorder.make exCam [(0, 0), (1, 0)] 0 false

/-- `exBorder2` with one polyline opened on its segment. -/
def exBorder2P : ToolTrimMeshBorder := exBorder2.addPolyline

/-- A three-point border whose two segments' plane normals have a negative
dot product (a reflexed two-segment chain). -/
def exBorderReflex2 : ToolTrimMeshBorder :=
  ToolTrimMeshBorder.make exCam [(0, 0), (1, 0), (0, 1)] 0 false

/-- A four-point border (three segments) whose first two segments' plane
normals have a negative dot product. -/
def exBorderReflex3 : ToolTrimMeshBorder :=
  ToolTrimMeshBorder.make exCam [(0, 0), (1, 0), (0, 1), (1, 1)] 0 false

/-- A three-point border with collinear screen points: its two segments'
plane normals have a positive dot product (a convex chain). -/
def exBorderConvex : ToolTrimMeshBorder :=
  ToolTrimMeshBorder.make exCam [(0, 0), (1, 0), (2, 0)] 0 false

/-- A one-segment border holding the single stored index `2 ^ 32 - 1`
(which equals `invalidIndex`). -/
def exBorderBig : ToolTrimMeshBorder :=
  ⟨[⟨[[4294967295]], ⟨0, 0⟩, none, none⟩]⟩

/-- A one-segment border holding small stored indices. -/
def exBorderSmall : ToolTrimMeshBorder :=
  ⟨[⟨[[0, 2], [1]], ⟨0, 0⟩, none, none⟩]⟩

theorem foldl_sub_normal (l : List ToolTrimMeshBorderSegment) (c : V3) :
    l.foldl (fun d s => d - s.plane.normal) c =
      c - (l.map (fun s => s.plane.normal)).sum := by
  induction l generalizing c with
  | nil => apply V3.ext3 <;> simp
  | cons a l ih =>
    simp only [List.foldl_cons, List.map_cons, List.sum_cons]
    rw [ih]
    apply V3.ext3 <;> simp <;> ring

theorem zero_sub3 (a : V3) : (0 : V3) - a = -a := by
  apply V3.ext3 <;> simp

theorem midpoint3_comm (a b : V3) : midpoint3 a b = midpoint3 b a := by
  unfold midpoint3
  apply V3.ext3 <;> simp <;> ring

/-- C2: a point on the border is never trimmed: `trimVertex` returns false
immediately whenever `onBorder` holds, regardless of the parity count. -/
theorem onBorder_never_trimmed (b : ToolTrimMeshBorder) (p : V3)
    (h : b.onBorder p = true) : b.trimVertex p = false := by
  simp [ToolTrimMeshBorder.trimVertex, h]

/-- C1: for a point not on the border, `trimVertex` returns true exactly when
the number of segments intersected by the ray cast from the point along the
negated sum of all segments' plane normals is odd. -/
theorem trimVertex_parity (b : ToolTrimMeshBorder) (p : V3)
    (h : b.onBorder p = false) :
    b.trimVertex p = true ↔
      Odd (b.segments.countP (fun s =>
        s.intersects ⟨p, -((b.segments.map (fun s => s.plane.normal)).sum)⟩)) := by
  unfold ToolTrimMeshBorder.trimVertex
  rw [h, if_neg Bool.false_ne_true]
  simp only [foldl_sub_normal, zero_sub3]
  simp [Nat.odd_iff]

/-- C4: characterization of the segment-level `onBorder`: an edge hit (edge1
tested before edge2, short-circuiting) yields `(true, true)` with priority
over the plane branch; otherwise the result is `(true, false)` exactly when
the point is on the plane and `isValidProjection` holds, where
`isValidProjection` conjoins a strictly-positive scalar triple product per
present edge (absent edges impose no constraint). -/
theorem onBorder_spec (s : ToolTrimMeshBorderSegment) (p : V3) :
    (s.onBorder p = (true, true) ↔
      (ToolTrimMeshBorderSegment.edgeHit s.edge1 p = true ∨
       ToolTrimMeshBorderSegment.edgeHit s.edge2 p = true))
    ∧ (s.onBorder p = (true, false) ↔
      (ToolTrimMeshBorderSegment.edgeHit s.edge1 p = false ∧
       ToolTrimMeshBorderSegment.edgeHit s.edge2 p = false ∧
       s.plane.onPlane p = true ∧ s.isValidProjection p = true))
    ∧ (s.isValidProjection p = true ↔
      ((∀ e ∈ s.edge1, 0 < V3.dot s.plane.normal (V3.cross (p - e.origin) e.direction)) ∧
       (∀ e ∈ s.edge2, 0 < V3.dot s.plane.normal (V3.cross e.direction (p - e.origin))))) := by
  refine ⟨?_, ?_, ?_⟩
  · unfold ToolTrimMeshBorderSegment.onBorder
    cases h1 : ToolTrimMeshBorderSegment.edgeHit s.edge1 p <;>
      cases h2 : ToolTrimMeshBorderSegment.edgeHit s.edge2 p <;>
        simp [h1, h2]
    split <;> simp
  · unfold ToolTrimMeshBorderSegment.onBorder
    cases h1 : ToolTrimMeshBorderSegment.edgeHit s.edge1 p <;>
      cases h2 : ToolTrimMeshBorderSegment.edgeHit s.edge2 p <;>
        simp [h1, h2]
    cases h3 : s.plane.onPlane p <;> simp [h3]
  · unfold ToolTrimMeshBorderSegment.isValidProjection
    cases he1 : s.edge1 <;> cases he2 : s.edge2 <;> simp

theorem trimFace_swap12 (b : ToolTrimMeshBorder) (p1 p2 p3 : V3) :
    b.trimFace p1 p2 p3 = b.trimFace p2 p1 p3 := by
  have hb : ∀ x y z : Bool, (x || y || z) = (y || x || z) := by decide
  have hb2 : ∀ x y z : Bool, (x && y && z) = (y && x && z) := by decide
  have hb3 : ∀ x y z : Bool, (x || y || z) = (x || z || y) := by decide
  unfold ToolTrimMeshBorder.trimFace
  rw [midpoint3_comm p2 p1,
      hb (b.trimVertex p2) (b.trimVertex p1) (b.trimVertex p3),
      hb2 (b.onBorder p2) (b.onBorder p1) (b.onBorder p3),
      hb3 (b.trimVertex (midpoint3 p1 p2)) (b.trimVertex (midpoint3 p2 p3))
        (b.trimVertex (midpoint3 p1 p3))]

theorem trimFace_swap23 (b : ToolTrimMeshBorder) (p1 p2 p3 : V3) :
    b.trimFace p1 p2 p3 = b.trimFace p1 p3 p2 := by
  have hb : ∀ x y z : Bool, (x || y || z) = (y || x || z) := by decide
  have hb3 : ∀ x y z : Bool, (x || y || z) = (x || z || y) := by decide
  have hb4 : ∀ x y z : Bool, (x && y && z) = (x && z && y) := by decide
  unfold ToolTrimMeshBorder.trimFace
  rw [midpoint3_comm p3 p2,
      hb3 (b.trimVertex p1) (b.trimVertex p3) (b.trimVertex p2),
      hb4 (b.onBorder p1) (b.onBorder p3) (b.onBorder p2),
      hb (b.trimVertex (midpoint3 p1 p3)) (b.trimVertex (midpoint3 p1 p2))
        (b.trimVertex (midpoint3 p2 p3))]

/-- C8: `trimFace` returns the same result for every permutation of its
three vertex arguments. -/
theorem trimFace_symm (b : ToolTrimMeshBorder) (p1 p2 p3 : V3) :
    b.trimFace p1 p2 p3 = b.trimFace p2 p1 p3 ∧
    b.trimFace p1 p2 p3 = b.trimFace p1 p3 p2 ∧
    b.trimFace p1 p2 p3 = b.trimFace p2 p3 p1 ∧
    b.trimFace p1 p2 p3 = b.trimFace p3 p1 p2 ∧
    b.trimFace p1 p2 p3 = b.trimFace p3 p2 p1 := by
  refine ⟨trimFace_swap12 b p1 p2 p3, trimFace_swap23 b p1 p2 p3, ?_, ?_, ?_⟩
  · rw [trimFace_swap12 b p1 p2 p3, trimFace_swap23 b p2 p1 p3]
  · rw [trimFace_swap23 b p1 p2 p3, trimFace_swap12 b p1 p3 p2]
  · rw [trimFace_swap12 b p1 p2 p3, trimFace_swap23 b p2 p1 p3,
        trimFace_swap12 b p2 p3 p1]

theorem getD_chain {α : Type _} (a b dflt : α) (f : ℕ → α) (m i : ℕ) (hi : i < m + 2) :
    (a :: (List.map f (List.range m) ++ [b])).getD i dflt =
      if i = 0 then a else if i < m + 1 then f (i - 1) else b := by
  cases i with
  | zero => simp
  | succ j =>
    rw [List.getD_cons_succ, if_neg (Nat.succ_ne_zero j)]
    by_cases hj : j < m
    · rw [if_pos (by omega)]
      rw [List.getD_eq_getElem?_getD, List.getElem?_append_left (by simpa using hj),
          List.getElem?_map, List.getElem?_range hj]
      simp
    · have hjm : j = m := by omega
      subst hjm
      rw [if_neg (by omega)]
      rw [List.getD_eq_getElem?_getD, List.getElem?_append_right (by simp)]
      simp

namespace ToolTrimMeshBorder

theorem segmentD_make (cam : Camera) (points : List (ℤ × ℤ)) (offset : ℚ) (reverse : Bool)
    (h : 2 < points.length) (i : ℕ) (hi : i < points.length - 1) :
    (make cam points offset reverse).segmentD i =
      (if reverse = false then
        if i = 0 then
          ToolTrimMeshBorderSegment.ofPlaneRay (makePlane cam points offset reverse 0 1)
            (makeRay cam points offset reverse 1)
        else if i < points.length - 2 then
          ToolTrimMeshBorderSegment.ofRays (makeRay cam points offset reverse i)
            (makeRay cam points offset reverse (i + 1))
        else
          ToolTrimMeshBorderSegment.ofRayPlane
            (makeRay cam points offset reverse (points.length - 2))
            (makePlane cam points offset reverse (points.length - 2) (points.length - 1))
      else
        if i = 0 then
          ToolTrimMeshBorderSegment.ofPlaneRay
            (makePlane cam points offset reverse (points.length - 1) (points.length - 2))
            (makeRay cam points offset reverse (points.length - 2))
        else if i < points.length - 2 then
          ToolTrimMeshBorderSegment.ofRays
            (makeRay cam points offset reverse (points.length - 1 - i))
            (makeRay cam points offset reverse (points.length - 2 - i))
        else
          ToolTrimMeshBorderSegment.ofRayPlane (makeRay cam points offset reverse 1)
            (makePlane cam points offset reverse 1 0)) := by
  have hne : ¬(points.length = 2) := by omega
  have hm1 : points.length - 3 + 1 = points.length - 2 := by omega
  cases reverse with
  | false =>
    simp only [make, segmentD, borderSegments, if_neg hne, eq_self_iff_true, if_true]
    rw [getD_chain _ _ _ _ _ i (by omega), hm1]
    split_ifs with h0 hmid
    · rfl
    · have e1 : 1 + (i - 1) = i := by omega
      have e2 : 2 + (i - 1) = i + 1 := by omega
      simp only [e1, e2]
    · rfl
  | true =>
    simp only [make, segmentD, borderSegments, if_neg hne, Bool.true_eq_false, if_false]
    rw [getD_chain _ _ _ _ _ i (by omega), hm1]
    split_ifs with h0 hmid
    · rfl
    · have e1 : points.length - 2 - (i - 1) = points.length - 1 - i := by omega
      have e2 : points.length - 3 - (i - 1) = points.length - 2 - i := by omega
      simp only [e1, e2]
    · rfl

theorem length_make (cam : Camera) (points : List (ℤ × ℤ)) (offset : ℚ) (reverse : Bool)
    (h : 2 ≤ points.length) :
    (make cam points offset reverse).numSegments = points.length - 1 := by
  unfold make numSegments borderSegments
  by_cases h2 : points.length = 2
  · rw [if_pos h2]
    cases reverse <;> simp [h2]
  · rw [if_neg h2]
    cases reverse <;> simp <;> omega

/-- C3: for two screen points the constructed border is a single plane-only
segment; for more than two, it is a chain of `n - 1` segments in traversal
order: a leading plane+trailing-ray segment, `n - 3` two-ray middle segments,
and a trailing leading-ray+plane segment. -/
theorem construction_shape (cam : Camera) (points : List (ℤ × ℤ)) (offset : ℚ)
    (reverse : Bool) :
    (points.length = 2 →
      (make cam points offset reverse).numSegments = 1 ∧
      ((make cam points offset reverse).segmentD 0).edge1 = none ∧
      ((make cam points offset reverse).segmentD 0).edge2 = none)
    ∧ (2 < points.length →
      (make cam points offset reverse).numSegments = points.length - 1 ∧
      (((make cam points offset reverse).segmentD 0).edge1 = none ∧
       ((make cam points offset reverse).segmentD 0).edge2.isSome = true) ∧
      (∀ i, 0 < i → i < points.length - 2 →
        ((make cam points offset reverse).segmentD i).edge1.isSome = true ∧
        ((make cam points offset reverse).segmentD i).edge2.isSome = true) ∧
      (((make cam points offset reverse).segmentD (points.length - 2)).edge1.isSome = true ∧
       ((make cam points offset reverse).segmentD (points.length - 2)).edge2 = none)) := by
  constructor
  · intro h2
    refine ⟨by rw [length_make _ _ _ _ (by omega)]; omega, ?_⟩
    unfold make segmentD borderSegments
    rw [if_pos h2]
    cases reverse <;> simp [ToolTrimMeshBorderSegment.ofPlane]
  · intro h3
    refine ⟨length_make _ _ _ _ (by omega), ?_, ?_, ?_⟩
    · rw [segmentD_make _ _ _ _ h3 0 (by omega)]
      by_cases hr : reverse = false
      · rw [if_pos hr, if_pos rfl]
        simp [ToolTrimMeshBorderSegment.ofPlaneRay]
      · rw [if_neg hr, if_pos rfl]
        simp [ToolTrimMeshBorderSegment.ofPlaneRay]
    · intro i hi0 hi2
      rw [segmentD_make _ _ _ _ h3 i (by omega)]
      by_cases hr : reverse = false
      · rw [if_pos hr, if_neg (by omega), if_pos hi2]
        simp [ToolTrimMeshBorderSegment.ofRays]
      · rw [if_neg hr, if_neg (by omega), if_pos hi2]
        simp [ToolTrimMeshBorderSegment.ofRays]
    · rw [segmentD_make _ _ _ _ h3 (points.length - 2) (by omega)]
      by_cases hr : reverse = false
      · rw [if_pos hr, if_neg (by omega), if_neg (by omega)]
        simp [ToolTrimMeshBorderSegment.ofRayPlane]
      · rw [if_neg hr, if_neg (by omega), if_neg (by omega)]
        simp [ToolTrimMeshBorderSegment.ofRayPlane]

/-- C5: inside a border built from more than two points, consecutive
segments share their seam ray: segment `i`'s `edge2` and segment `i + 1`'s
`edge1` hold the identical ray, both built from the same camera ray and
offset displacement. -/
theorem seam_shared_ray (cam : Camera) (points : List (ℤ × ℤ)) (offset : ℚ) (reverse : Bool)
    (h : 2 < points.length) (i : ℕ) (hi : i < points.length - 2) :
    ∃ r : PrimRay,
      ((make cam points offset reverse).segmentD i).edge2 = some r ∧
      ((make cam points offset reverse).segmentD (i + 1)).edge1 = some r := by
  rw [segmentD_make _ _ _ _ h i (by omega), segmentD_make _ _ _ _ h (i + 1) (by omega)]
  by_cases hr : reverse = false
  · rw [if_pos hr, if_pos hr]
    refine ⟨makeRay cam points offset reverse (i + 1), ?_, ?_⟩
    · split_ifs with h0
      · rw [show i + 1 = 1 by omega]
        rfl
      · rfl
    · rw [if_neg (show ¬(i + 1 = 0) by omega)]
      by_cases hm : i + 1 < points.length - 2
      · rw [if_pos hm]
        rfl
      · rw [if_neg hm, show points.length - 2 = i + 1 by omega]
        rfl
  · rw [if_neg hr, if_neg hr]
    refine ⟨makeRay cam points offset reverse (points.length - 2 - i), ?_, ?_⟩
    · split_ifs with h0
      · rw [show points.length - 2 - i = points.length - 2 by omega]
        rfl
      · rfl
    · rw [if_neg (show ¬(i + 1 = 0) by omega)]
      by_cases hm : i + 1 < points.length - 2
      · rw [if_pos hm, show points.length - 1 - (i + 1) = points.length - 2 - i by omega]
        rfl
      · rw [if_neg hm, show points.length - 2 - i = 1 by omega]
        rfl

end ToolTrimMeshBorder

/-- C6 (amended): `onlyObtuseAngles` returns false for every border with
MORE THAN TWO segments whose chain contains consecutive plane normals with a
negative dot product, and returns true whenever all consecutive pairs of
plane normals have a non-negative dot product.  (For a chain of at most two
segments it returns true unconditionally — see the counterexample.) -/
theorem onlyObtuseAngles_spec :
    (∀ (b : ToolTrimMeshBorder) (i : ℕ), 2 < b.numSegments → i < b.numSegments - 1 →
      V3.dot (b.segmentD i).plane.normal (b.segmentD (i + 1)).plane.normal < 0 →
      b.onlyObtuseAngles = false)
    ∧ (∀ b : ToolTrimMeshBorder,
      (∀ i, i < b.numSegments - 1 →
        0 ≤ V3.dot (b.segmentD i).plane.normal (b.segmentD (i + 1)).plane.normal) →
      b.onlyObtuseAngles = true) := by
  constructor
  · intro b i h2 hi hneg
    have h2s : 2 < b.segments.length := h2
    have his : i < b.segments.length - 1 := hi
    unfold ToolTrimMeshBorder.onlyObtuseAngles
    rw [if_pos h2s]
    cases hall : (List.range (b.segments.length - 1)).all (fun j =>
        !decide (V3.dot (b.segmentD j).plane.normal (b.segmentD (j + 1)).plane.normal < 0)) with
    | false => rfl
    | true =>
      exfalso
      have hj := List.all_eq_true.mp hall i (List.mem_range.mpr his)
      simp at hj
      exact absurd hneg (not_lt.mpr hj)
  · intro b hall
    unfold ToolTrimMeshBorder.onlyObtuseAngles
    by_cases h2 : 2 < b.segments.length
    · rw [if_pos h2, List.all_eq_true]
      intro j hj
      have h0 := hall j (List.mem_range.mp hj)
      rw [decide_eq_false (not_lt.mpr h0)]
      rfl
    · rw [if_neg h2]

/-- C6 counterexample: a two-segment border whose consecutive plane normals
have a negative dot product, yet `onlyObtuseAngles` returns true (the C++
loop is guarded by `segments.size () > 2`), refuting the claim as stated. -/
theorem onlyObtuseAngles_guard_cex :
    2 ≤ exBorderReflex2.numSegments ∧
    V3.dot (exBorderReflex2.segmentD 0).plane.normal
      (exBorderReflex2.segmentD 1).plane.normal < 0 ∧
    exBorderReflex2.onlyObtuseAngles = true := by
  norm_num [exBorderReflex2, exCam, ToolTrimMeshBorder.make, ToolTrimMeshBorder.numSegments,
    ToolTrimMeshBorder.borderSegments, ToolTrimMeshBorder.makePlane, ToolTrimMeshBorder.makeRay,
    ToolTrimMeshBorder.baseNormal, ToolTrimMeshBorder.rFirst, ToolTrimMeshBorder.rLast,
    ToolTrimMeshBorder.segmentD, ToolTrimMeshBorder.onlyObtuseAngles,
    ToolTrimMeshBorderSegment.ofPlaneRay, ToolTrimMeshBorderSegment.ofRayPlane,
    ToolTrimMeshBorderSegment.ofRays, ToolTrimMeshBorderSegment.ofPlane,
    V3.dot, V3.cross]

theorem mapOrNone_eq_some (f : α → Option β) (g : α → β) :
    ∀ l : List α, (∀ a ∈ l, f a = some (g a)) → mapOrNone f l = some (l.map g)
  | [], _ => rfl
  | a :: l, h => by
    unfold mapOrNone
    rw [h a (List.mem_cons_self a l),
        mapOrNone_eq_some f g l (fun x hx => h x (List.mem_cons_of_mem a hx))]
    rfl

theorem mapOrNone_eq_none (f : α → Option β) {a : α} :
    ∀ l : List α, a ∈ l → f a = none → mapOrNone f l = none
  | b :: l, h, hfa => by
    unfold mapOrNone
    rcases List.mem_cons.mp h with rfl | hmem
    · rw [hfa]
    · rw [mapOrNone_eq_none f l hmem hfa]
      cases f b <;> rfl

/-- C7: `addVertex` appends the index to the most recently opened polyline of
every segment accepting the point; it is fatal (`none`) when no segment
accepts, and a single segment's `addVertex` is fatal when `onBorder` fails or
no polyline has been opened. -/
theorem addVertex_spec :
    (∀ (b : ToolTrimMeshBorder) (idx : ℕ) (p : V3),
      b.segments.any (fun s => (s.onBorder p).1) = true →
      (∀ s ∈ b.segments, (s.onBorder p).1 = true → s.polylines ≠ []) →
      b.addVertex idx p = some ⟨b.segments.map (fun s =>
        if (s.onBorder p).1 = true then
          { s with polylines := appendToLast s.polylines idx } else s)⟩)
    ∧ (∀ (b : ToolTrimMeshBorder) (idx : ℕ) (p : V3),
      b.segments.any (fun s => (s.onBorder p).1) = false →
      b.addVertex idx p = none)
    ∧ (∀ (s : ToolTrimMeshBorderSegment) (idx : ℕ) (p : V3),
      (s.onBorder p).1 = false ∨ s.polylines = [] →
      s.addVertex idx p = none) := by
  refine ⟨?_, ?_, ?_⟩
  · intro b idx p hany hne
    unfold ToolTrimMeshBorder.addVertex
    rw [mapOrNone_eq_some _
      (fun s => if (s.onBorder p).1 = true then
        { s with polylines := appendToLast s.polylines idx } else s)
      b.segments ?_]
    · simp [hany]
    · intro s hs
      show (if (s.onBorder p).1 = true then s.addVertex idx p else some s)
          = some (if (s.onBorder p).1 = true then
              { s with polylines := appendToLast s.polylines idx } else s)
      by_cases hc : (s.onBorder p).1 = true
      · rw [if_pos hc, if_pos hc]
        unfold ToolTrimMeshBorderSegment.addVertex
        rw [if_pos hc, if_pos (List.isEmpty_eq_false.mpr (hne s hs hc))]
      · rw [if_neg hc, if_neg hc]
  · intro b idx p hany
    unfold ToolTrimMeshBorder.addVertex
    rw [mapOrNone_eq_some _ id b.segments (fun s hs => by
      show (if (s.onBorder p).1 = true then s.addVertex idx p else some s) = some (id s)
      rw [if_neg (by simp [List.any_eq_false.mp hany s hs])]
      rfl)]
    simp [hany]
  · intro s idx p h
    rcases h with h | h
    · simp [ToolTrimMeshBorderSegment.addVertex, h]
    · simp [ToolTrimMeshBorderSegment.addVertex, h]

theorem lookupNew_range {m i : ℕ} (him : i < m) (hinv : i ≠ invalidIndex) :
    ToolTrimMeshBorderSegment.lookupNew (List.range m) i = some i := by
  unfold ToolTrimMeshBorderSegment.lookupNew
  rw [dif_pos (by simpa using him)]
  simp [List.getElem_range, hinv]

theorem segment_setNewIndices_id (s : ToolTrimMeshBorderSegment) (m : ℕ)
    (h : ∀ pl ∈ s.polylines, ∀ i ∈ pl, i < m ∧ i ≠ invalidIndex) :
    s.setNewIndices (List.range m) = some s := by
  unfold ToolTrimMeshBorderSegment.setNewIndices
  rw [mapOrNone_eq_some _ id s.polylines (fun pl hpl => by
    have hin : mapOrNone (ToolTrimMeshBorderSegment.lookupNew (List.range m)) pl
        = some (pl.map id) :=
      mapOrNone_eq_some _ id pl (fun i hi => by
        rcases h pl hpl i hi with ⟨h1, h2⟩
        simpa using lookupNew_range h1 h2)
    simpa using hin)]
  simp

/-- C9 (amended): `setNewIndices` with the identity mapping leaves every
stored polyline index unchanged, PROVIDED every stored index is a valid
position of the mapping AND none equals the `invalidIndex` sentinel
(`2 ^ 32 - 1`); at the sentinel the assertion fires — see the
counterexample. -/
theorem setNewIndices_identity :
    (∀ (s : ToolTrimMeshBorderSegment) (m : ℕ),
      (∀ pl ∈ s.polylines, ∀ i ∈ pl, i < m ∧ i ≠ invalidIndex) →
      s.setNewIndices (List.range m) = some s)
    ∧ (∀ (b : ToolTrimMeshBorder) (m : ℕ),
      (∀ s ∈ b.segments, ∀ pl ∈ s.polylines, ∀ i ∈ pl, i < m ∧ i ≠ invalidIndex) →
      b.setNewIndices (List.range m) = some b) := by
  refine ⟨segment_setNewIndices_id, ?_⟩
  intro b m h
  unfold ToolTrimMeshBorder.setNewIndices
  rw [mapOrNone_eq_some _ id b.segments (fun s hs => by
    simpa using segment_setNewIndices_id s m (h s hs))]
  simp

theorem lookupNew_at_invalid :
    ToolTrimMeshBorderSegment.lookupNew (List.range 4294967296) 4294967295 = none := by
  unfold ToolTrimMeshBorderSegment.lookupNew
  rw [dif_pos (show 4294967295 < (List.range 4294967296).length by
    rw [List.length_range]; omega)]
  rw [List.getElem_range]
  rw [if_neg (show ¬(4294967295 ≠ invalidIndex) by unfold invalidIndex; norm_num)]

theorem row_at_invalid_none :
    mapOrNone (ToolTrimMeshBorderSegment.lookupNew (List.range 4294967296))
      [4294967295] = none :=
  mapOrNone_eq_none _ [4294967295] (List.mem_singleton.mpr rfl) lookupNew_at_invalid

theorem seg_at_invalid_none : (⟨[[4294967295]], ⟨0, 0⟩, none, none⟩ :
    ToolTrimMeshBorderSegment).setNewIndices (List.range 4294967296) = none := by
  unfold ToolTrimMeshBorderSegment.setNewIndices
  rw [mapOrNone_eq_none _ [[4294967295]] (List.mem_singleton.mpr rfl) row_at_invalid_none]
  rfl

/-- C9 counterexample: a border whose single stored index `2 ^ 32 - 1` is a
valid position of the identity mapping `List.range (2 ^ 32)`, yet
`setNewIndices` is a fatal assertion failure (`none`) rather than the
identity, because the looked-up value equals the `invalidIndex` sentinel. -/
theorem setNewIndices_identity_cex :
    (∀ s ∈ exBorderBig.segments, ∀ pl ∈ s.polylines, ∀ i ∈ pl,
      i < (List.range 4294967296).length) ∧
    exBorderBig.setNewIndices (List.range 4294967296) = none := by
  constructor
  · intro s hs pl hpl i hi
    simp only [exBorderBig, List.mem_singleton] at hs
    subst hs
    simp only [List.mem_singleton] at hpl
    subst hpl
    simp only [List.mem_singleton] at hi
    subst hi
    rw [List.length_range]
    omega
  · unfold exBorderBig ToolTrimMeshBorder.setNewIndices
    rw [mapOrNone_eq_none (fun s => s.setNewIndices (List.range 4294967296))
      [(⟨[[4294967295]], ⟨0, 0⟩, none, none⟩ : ToolTrimMeshBorderSegment)]
      (List.mem_singleton.mpr rfl) seg_at_invalid_none]
    rfl

theorem borderSegments_polylines (cam : Camera) (points : List (ℤ × ℤ)) (offset : ℚ)
    (reverse : Bool) :
    ∀ s ∈ ToolTrimMeshBorder.borderSegments cam points offset reverse, s.polylines = [] := by
  intro s hs
  unfold ToolTrimMeshBorder.borderSegments at hs
  by_cases h2 : points.length = 2
  · rw [if_pos h2] at hs
    split_ifs at hs <;> (simp only [List.mem_singleton] at hs; subst hs; rfl)
  · rw [if_neg h2] at hs
    split_ifs at hs <;>
      (simp only [List.mem_cons, List.mem_append, List.mem_map, List.mem_range,
        List.mem_singleton, List.not_mem_nil, or_false] at hs
       rcases hs with rfl | ⟨⟨k, hk, rfl⟩ | rfl⟩ <;> rfl)

/-- C10: a freshly constructed border has only empty polyline sequences in
its segments, `hasVertices` is false, and any `addVertex` call before the
first `addPolyline` is a fatal assertion failure (`none`), even for a point
on the border. -/
theorem fresh_border (cam : Camera) (points : List (ℤ × ℤ)) (offset : ℚ) (reverse : Bool)
    (idx : ℕ) (p : V3) (h : 2 ≤ points.length) :
    (∀ s ∈ (ToolTrimMeshBorder.make cam points offset reverse).segments, s.polylines = [])
    ∧ (ToolTrimMeshBorder.make cam points offset reverse).hasVertices = false
    ∧ (ToolTrimMeshBorder.make cam points offset reverse).addVertex idx p = none := by
  have hemp : ∀ s ∈ (ToolTrimMeshBorder.make cam points offset reverse).segments,
      s.polylines = [] := borderSegments_polylines cam points offset reverse
  refine ⟨hemp, ?_, ?_⟩
  · unfold ToolTrimMeshBorder.hasVertices
    rw [List.any_eq_false]
    intro s hs
    simp [ToolTrimMeshBorderSegment.hasVertices, hemp s hs]
  · unfold ToolTrimMeshBorder.addVertex
    cases hany : (ToolTrimMeshBorder.make cam points offset reverse).segments.any
        (fun s => (s.onBorder p).1) with
    | false =>
      cases hm : mapOrNone (fun s =>
          if (s.onBorder p).1 = true then s.addVertex idx p else some s)
          (ToolTrimMeshBorder.make cam points offset reverse).segments with
      | none => simp [hm]
      | some segs => simp [hm, hany]
    | true =>
      obtain ⟨s, hs, hsb⟩ := List.any_eq_true.mp hany
      have hf : (if (s.onBorder p).1 = true then s.addVertex idx p else some s) = none := by
        rw [if_pos hsb]
        simp [ToolTrimMeshBorderSegment.addVertex, hemp s hs, hsb]
      rw [mapOrNone_eq_none _ _ hs hf]

theorem trimVertex_parity_witness :
    exBorder2.onBorder ⟨0, 1, 0⟩ = false ∧
    (exBorder2.trimVertex ⟨0, 1, 0⟩ = true ↔
      Odd (exBorder2.segments.countP (fun s =>
        s.intersects ⟨⟨0, 1, 0⟩, -((exBorder2.segments.map (fun s => s.plane.normal)).sum)⟩))) := by
  have h : exBorder2.onBorder ⟨0, 1, 0⟩ = false := by
    norm_num [exBorder2, exCam, ToolTrimMeshBorder.make, ToolTrimMeshBorder.borderSegments,
      ToolTrimMeshBorder.makePlane, ToolTrimMeshBorder.makeRay, ToolTrimMeshBorder.baseNormal,
      ToolTrimMeshBorder.rFirst, ToolTrimMeshBorder.rLast, ToolTrimMeshBorder.onBorder,
      ToolTrimMeshBorderSegment.onBorder, ToolTrimMeshBorderSegment.edgeHit,
      ToolTrimMeshBorderSegment.isValidProjection, ToolTrimMeshBorderSegment.ofPlane,
      PrimPlane.onPlane, PrimRay.onRay, V3.dot, V3.cross]
  exact ⟨h, trimVertex_parity exBorder2 ⟨0, 1, 0⟩ h⟩

theorem onBorder_never_trimmed_witness :
    exBorder2.onBorder ⟨0, 0, 0⟩ = true ∧ exBorder2.trimVertex ⟨0, 0, 0⟩ = false := by
  have h : exBorder2.onBorder ⟨0, 0, 0⟩ = true := by
    norm_num [exBorder2, exCam, ToolTrimMeshBorder.make, ToolTrimMeshBorder.borderSegments,
      ToolTrimMeshBorder.makePlane, ToolTrimMeshBorder.makeRay, ToolTrimMeshBorder.baseNormal,
      ToolTrimMeshBorder.rFirst, ToolTrimMeshBorder.rLast, ToolTrimMeshBorder.onBorder,
      ToolTrimMeshBorderSegment.onBorder, ToolTrimMeshBorderSegment.edgeHit,
      ToolTrimMeshBorderSegment.isValidProjection, ToolTrimMeshBorderSegment.ofPlane,
      PrimPlane.onPlane, PrimRay.onRay, V3.dot, V3.cross]
  exact ⟨h, onBorder_never_trimmed exBorder2 ⟨0, 0, 0⟩ h⟩

theorem construction_shape_witness :
    (([((0 : ℤ), (0 : ℤ)), (1, 0)] : List (ℤ × ℤ)).length = 2 ∧
      (ToolTrimMeshBorder.make exCam [((0 : ℤ), (0 : ℤ)), (1, 0)] 0 false).numSegments = 1 ∧
      ((ToolTrimMeshBorder.make exCam [((0 : ℤ), (0 : ℤ)), (1, 0)] 0 false).segmentD 0).edge1
        = none ∧
      ((ToolTrimMeshBorder.make exCam [((0 : ℤ), (0 : ℤ)), (1, 0)] 0 false).segmentD 0).edge2
        = none) ∧
    (2 < ([((0 : ℤ), (0 : ℤ)), (1, 0), (0, 1), (1, 1)] : List (ℤ × ℤ)).length ∧
      (ToolTrimMeshBorder.make exCam [((0 : ℤ), (0 : ℤ)), (1, 0), (0, 1), (1, 1)] 0
          false).numSegments
        = ([((0 : ℤ), (0 : ℤ)), (1, 0), (0, 1), (1, 1)] : List (ℤ × ℤ)).length - 1 ∧
      (((ToolTrimMeshBorder.make exCam [((0 : ℤ), (0 : ℤ)), (1, 0), (0, 1), (1, 1)] 0
          false).segmentD 0).edge1 = none ∧
       ((ToolTrimMeshBorder.make exCam [((0 : ℤ), (0 : ℤ)), (1, 0), (0, 1), (1, 1)] 0
          false).segmentD 0).edge2.isSome = true) ∧
      (∀ i, 0 < i →
        i < ([((0 : ℤ), (0 : ℤ)), (1, 0), (0, 1), (1, 1)] : List (ℤ × ℤ)).length - 2 →
        ((ToolTrimMeshBorder.make exCam [((0 : ℤ), (0 : ℤ)), (1, 0), (0, 1), (1, 1)] 0
          false).segmentD i).edge1.isSome = true ∧
        ((ToolTrimMeshBorder.make exCam [((0 : ℤ), (0 : ℤ)), (1, 0), (0, 1), (1, 1)] 0
          false).segmentD i).edge2.isSome = true) ∧
      (((ToolTrimMeshBorder.make exCam [((0 : ℤ), (0 : ℤ)), (1, 0), (0, 1), (1, 1)] 0
          false).segmentD
            (([((0 : ℤ), (0 : ℤ)), (1, 0), (0, 1), (1, 1)] : List (ℤ × ℤ)).length - 2)).edge1.isSome
          = true ∧
       ((ToolTrimMeshBorder.make exCam [((0 : ℤ), (0 : ℤ)), (1, 0), (0, 1), (1, 1)] 0
          false).segmentD
            (([((0 : ℤ), (0 : ℤ)), (1, 0), (0, 1), (1, 1)] : List (ℤ × ℤ)).length - 2)).edge2
          = none)) :=
  ⟨⟨by norm_num,
    (ToolTrimMeshBorder.construction_shape exCam [((0 : ℤ), (0 : ℤ)), (1, 0)] 0 false).1
      (by norm_num)⟩,
   by norm_num,
   (ToolTrimMeshBorder.construction_shape exCam
      [((0 : ℤ), (0 : ℤ)), (1, 0), (0, 1), (1, 1)] 0 false).2 (by norm_num)⟩

theorem seam_shared_ray_witness :
    2 < ([((0 : ℤ), (0 : ℤ)), (1, 0), (0, 1), (1, 1)] : List (ℤ × ℤ)).length ∧
    0 < ([((0 : ℤ), (0 : ℤ)), (1, 0), (0, 1), (1, 1)] : List (ℤ × ℤ)).length - 2 ∧
    ∃ r : PrimRay,
      ((ToolTrimMeshBorder.make exCam [((0 : ℤ), (0 : ℤ)), (1, 0), (0, 1), (1, 1)] 0
        false).segmentD 0).edge2 = some r ∧
      ((ToolTrimMeshBorder.make exCam [((0 : ℤ), (0 : ℤ)), (1, 0), (0, 1), (1, 1)] 0
        false).segmentD 1).edge1 = some r :=
  ⟨by norm_num, by norm_num,
   ToolTrimMeshBorder.seam_shared_ray exCam [((0 : ℤ), (0 : ℤ)), (1, 0), (0, 1), (1, 1)] 0 false
     (by norm_num) 0 (by norm_num)⟩

theorem fresh_border_witness :
    2 ≤ ([((0 : ℤ), (0 : ℤ)), (1, 0)] : List (ℤ × ℤ)).length ∧
    ((∀ s ∈ (ToolTrimMeshBorder.make exCam [((0 : ℤ), (0 : ℤ)), (1, 0)] 0 false).segments,
        s.polylines = [])
      ∧ (ToolTrimMeshBorder.make exCam [((0 : ℤ), (0 : ℤ)), (1, 0)] 0 false).hasVertices = false
      ∧ (ToolTrimMeshBorder.make exCam [((0 : ℤ), (0 : ℤ)), (1, 0)] 0 false).addVertex 7 ⟨1, 2, 3⟩
          = none) :=
  ⟨by norm_num,
   fresh_border exCam [((0 : ℤ), (0 : ℤ)), (1, 0)] 0 false 7 ⟨1, 2, 3⟩ (by norm_num)⟩

theorem addPolyline_polylines_ne (b : ToolTrimMeshBorder) :
    ∀ s ∈ b.addPolyline.segments, s.polylines ≠ [] := by
  intro s hs
  unfold ToolTrimMeshBorder.addPolyline at hs
  simp only [List.mem_map] at hs
  obtain ⟨t, ht, rfl⟩ := hs
  simp [ToolTrimMeshBorderSegment.addPolyline]

theorem onlyObtuseAngles_spec_witness :
    (2 < exBorderReflex3.numSegments ∧ 0 < exBorderReflex3.numSegments - 1 ∧
     V3.dot (exBorderReflex3.segmentD 0).plane.normal
       (exBorderReflex3.segmentD 1).plane.normal < 0 ∧
     exBorderReflex3.onlyObtuseAngles = false) ∧
    ((∀ i, i < exBorderConvex.numSegments - 1 →
       0 ≤ V3.dot (exBorderConvex.segmentD i).plane.normal
         (exBorderConvex.segmentD (i + 1)).plane.normal) ∧
     exBorderConvex.onlyObtuseAngles = true) := by
  have h2 : 2 < exBorderReflex3.numSegments := by
    norm_num [exBorderReflex3, exCam, ToolTrimMeshBorder.make, ToolTrimMeshBorder.numSegments,
      ToolTrimMeshBorder.borderSegments, ToolTrimMeshBorder.makePlane, ToolTrimMeshBorder.makeRay,
      ToolTrimMeshBorder.baseNormal, ToolTrimMeshBorder.rFirst, ToolTrimMeshBorder.rLast]
  have hi : (0 : ℕ) < exBorderReflex3.numSegments - 1 := by
    norm_num [exBorderReflex3, exCam, ToolTrimMeshBorder.make, ToolTrimMeshBorder.numSegments,
      ToolTrimMeshBorder.borderSegments, ToolTrimMeshBorder.makePlane, ToolTrimMeshBorder.makeRay,
      ToolTrimMeshBorder.baseNormal, ToolTrimMeshBorder.rFirst, ToolTrimMeshBorder.rLast]
  have hneg : V3.dot (exBorderReflex3.segmentD 0).plane.normal
      (exBorderReflex3.segmentD 1).plane.normal < 0 := by
    norm_num [exBorderReflex3, exCam, ToolTrimMeshBorder.make, ToolTrimMeshBorder.segmentD,
      ToolTrimMeshBorder.borderSegments, ToolTrimMeshBorder.makePlane, ToolTrimMeshBorder.makeRay,
      ToolTrimMeshBorder.baseNormal, ToolTrimMeshBorder.rFirst, ToolTrimMeshBorder.rLast,
      ToolTrimMeshBorderSegment.ofPlaneRay, ToolTrimMeshBorderSegment.ofRayPlane,
      ToolTrimMeshBorderSegment.ofRays, List.range_succ, List.range_zero, V3.dot, V3.cross]
  have hconv : ∀ i, i < exBorderConvex.numSegments - 1 →
      0 ≤ V3.dot (exBorderConvex.segmentD i).plane.normal
        (exBorderConvex.segmentD (i + 1)).plane.normal := by
    have hns : exBorderConvex.numSegments = 2 := by
      norm_num [exBorderConvex, exCam, ToolTrimMeshBorder.make, ToolTrimMeshBorder.numSegments,
        ToolTrimMeshBorder.borderSegments, ToolTrimMeshBorder.makePlane,
        ToolTrimMeshBorder.makeRay, ToolTrimMeshBorder.baseNormal, ToolTrimMeshBorder.rFirst,
        ToolTrimMeshBorder.rLast]
    intro i hi2
    rw [hns] at hi2
    have h0 : i = 0 := by omega
    subst h0
    norm_num [exBorderConvex, exCam, ToolTrimMeshBorder.make, ToolTrimMeshBorder.segmentD,
      ToolTrimMeshBorder.borderSegments, ToolTrimMeshBorder.makePlane, ToolTrimMeshBorder.makeRay,
      ToolTrimMeshBorder.baseNormal, ToolTrimMeshBorder.rFirst, ToolTrimMeshBorder.rLast,
      ToolTrimMeshBorderSegment.ofPlaneRay, ToolTrimMeshBorderSegment.ofRayPlane,
      ToolTrimMeshBorderSegment.ofRays, List.range_succ, List.range_zero, V3.dot, V3.cross]
  exact ⟨⟨h2, hi, hneg, onlyObtuseAngles_spec.1 exBorderReflex3 0 h2 hi hneg⟩,
         ⟨hconv, onlyObtuseAngles_spec.2 exBorderConvex hconv⟩⟩

theorem addVertex_spec_witness :
    exBorder2P.segments.any (fun s => (s.onBorder ⟨0, 0, 0⟩).1) = true ∧
    (∀ s ∈ exBorder2P.segments, (s.onBorder ⟨0, 0, 0⟩).1 = true → s.polylines ≠ []) ∧
    exBorder2P.addVertex 5 ⟨0, 0, 0⟩ = some ⟨exBorder2P.segments.map (fun s =>
      if (s.onBorder ⟨0, 0, 0⟩).1 = true then
        { s with polylines := appendToLast s.polylines 5 } else s)⟩ := by
  have h1 : exBorder2P.segments.any (fun s => (s.onBorder ⟨0, 0, 0⟩).1) = true := by
    norm_num [exBorder2P, exBorder2, exCam, ToolTrimMeshBorder.make,
      ToolTrimMeshBorder.addPolyline, ToolTrimMeshBorderSegment.addPolyline,
      ToolTrimMeshBorder.borderSegments, ToolTrimMeshBorder.makePlane, ToolTrimMeshBorder.makeRay,
      ToolTrimMeshBorder.baseNormal, ToolTrimMeshBorder.rFirst, ToolTrimMeshBorder.rLast,
      ToolTrimMeshBorderSegment.onBorder, ToolTrimMeshBorderSegment.edgeHit,
      ToolTrimMeshBorderSegment.isValidProjection, ToolTrimMeshBorderSegment.ofPlane,
      PrimPlane.onPlane, PrimRay.onRay, V3.dot, V3.cross]
  have h2 : ∀ s ∈ exBorder2P.segments, (s.onBorder ⟨0, 0, 0⟩).1 = true → s.polylines ≠ [] :=
    fun s hs _ => addPolyline_polylines_ne exBorder2 s hs
  exact ⟨h1, h2, addVertex_spec.1 exBorder2P 5 ⟨0, 0, 0⟩ h1 h2⟩

theorem setNewIndices_identity_witness :
    (∀ s ∈ exBorderSmall.segments, ∀ pl ∈ s.polylines, ∀ i ∈ pl,
      i < 5 ∧ i ≠ invalidIndex) ∧
    exBorderSmall.setNewIndices (List.range 5) = some exBorderSmall := by
  have hh : ∀ s ∈ exBorderSmall.segments, ∀ pl ∈ s.polylines, ∀ i ∈ pl,
      i < 5 ∧ i ≠ invalidIndex := by
    intro s hs pl hpl i hi
    simp only [exBorderSmall, List.mem_singleton] at hs
    subst hs
    simp only [List.mem_cons, List.not_mem_nil, or_false] at hpl
    rcases hpl with rfl | rfl
    · simp only [List.mem_cons, List.not_mem_nil, or_false] at hi
      rcases hi with rfl | rfl <;> exact ⟨by norm_num, by norm_num [invalidIndex]⟩
    · simp only [List.mem_cons, List.not_mem_nil, or_false] at hi
      subst hi
      exact ⟨by norm_num, by norm_num [invalidIndex]⟩
  exact ⟨hh, setNewIndices_identity.2 exBorderSmall 5 hh⟩
